import Mathlib

/-!
Formalisation of `scripts/build_lunr_index.mjs` from paperless-ngx/gh-docs-index.

The script reads `out/github-docs.json`, builds a Lunr full-text index with
reference key `id` and the three searchable fields `title`, `excerpt` and
`labels` (labels joined by single spaces), and writes the serialized index to
`out/github-lunr-index.json`.

The Lunr library itself is not part of the repository's sources; its behaviour
(tokenization, stemming, the inverted-index structure, lookup) is modelled from
the specification: the index maps stemmed tokens from the three fields to
postings referencing document ids, built by the library's default English
tokenization and stemming pipeline.
-/

namespace GhDocsIndex

set_option autoImplicit false

/-- Document record as produced by the fetcher and consumed by
`build_lunr_index.mjs`.  JSON objects may lack any field, so every field is
optional; the indexer itself reads only `id`, `title`, `excerpt`, `labels`
(see `this.add` in the source). -/
structure Document where
  id : Option String := none
  type_ : Option String := none
  number : Option Int := none
  url : Option String := none
  updated_at : Option String := none
  title : Option String := none
  excerpt : Option String := none
  labels : Option (List String) := none
  deriving DecidableEq, Repr

/-- The attribute object passed to `this.add` in the builder callback:
`{ id: d.id, title: d.title || "", excerpt: d.excerpt || "",
   labels: (d.labels || []).join(" ") }`. -/
structure IndexedDoc where
  ref : String
  title : String
  excerpt : String
  labels : String
  deriving DecidableEq, Repr

/-- Modelled from the spec: the reference key of a document is its `id`.
A document lacking `id` passes `undefined` to the library, which coerces the
reference to the string "undefined" when used as an object key (JavaScript
key coercion); no validation or rejection happens. -/
def refOf (d : Document) : String := d.id.getD "undefined"

/-- The object built for `this.add` (source lines 17-22): `title` and
`excerpt` default to the empty string via `|| ""`, `labels` defaults to the
empty list via `|| []` and is joined by single spaces. -/
def addDoc (d : Document) : IndexedDoc :=
  { ref := refOf d
    title := d.title.getD ""
    excerpt := d.excerpt.getD ""
    labels := String.intercalate " " (d.labels.getD []) }

/-- Separator characters of the default tokenizer: whitespace and hyphen. -/
def isSep (c : Char) : Bool :=
  c = ' ' || c = '\t' || c = '\n' || c = '\r' || c = '-'

/-- Split a lower-cased character list at separators, accumulating the
current token in reverse. -/
def splitTokens : List Char → List Char → List (List Char)
  | [], cur => [cur.reverse]
  | c :: cs, cur =>
    if isSep c then cur.reverse :: splitTokens cs [] else splitTokens cs (c :: cur)

/-- Modelled from the spec: the library's default English tokenizer —
lower-case the text and split it on separators, discarding empty tokens. -/
def tokenize (s : String) : List String :=
  ((splitTokens (s.data.map Char.toLower) []).filter (fun t => t ≠ [])).map
    (fun t => String.mk t)

/-- Test whether `p` is a suffix of `w`. -/
def hasSfx (w p : List Char) : Bool :=
  w.reverse.take p.length == p.reverse

/-- Drop the last `n` characters. -/
def dropSfx (w : List Char) (n : Nat) : List Char :=
  w.take (w.length - n)

/-- Whether the word ends in a doubled character (as in "runn"). -/
def doubledEnd (w : List Char) : Bool :=
  match w.reverse with
  | a :: b :: _ => a == b
  | _ => false

/-- Modelled from the spec: a deterministic English suffix-stripping stemmer
standing for the library's default stemming step (the glossary's example:
"running" becomes "run"). -/
def stemChars (w : List Char) : List Char :=
  if hasSfx w ['i', 'e', 's'] && w.length > 4 then dropSfx w 3 ++ ['y']
  else if hasSfx w ['s', 's', 'e', 's'] then dropSfx w 2
  else if hasSfx w ['s', 's'] then w
  else if hasSfx w ['s'] && w.length > 3 then dropSfx w 1
  else if hasSfx w ['i', 'n', 'g'] && w.length > 5 then
    (let r := dropSfx w 3; if doubledEnd r then dropSfx r 1 else r)
  else if hasSfx w ['e', 'd'] && w.length > 4 then dropSfx w 2
  else if hasSfx w ['l', 'y'] && w.length > 4 then dropSfx w 2
  else w

/-- Stemming lifted to strings. -/
def stem (t : String) : String := String.mk (stemChars t.data)

/-- Modelled from the spec: the default text-processing pipeline applied to a
field value — tokenize, then stem each token. -/
def pipeline (s : String) : List String := (tokenize s).map stem

/-- The reference key registered by `this.ref("id")`. -/
def builderRef : String := "id"

/-- The searchable fields registered by the three `this.field` calls, in
source order. -/
def builderFields : List String := ["title", "excerpt", "labels"]

/-- Field access on the added object by field name. -/
def fieldValue (x : IndexedDoc) (f : String) : String :=
  if f = "title" then x.title
  else if f = "excerpt" then x.excerpt
  else if f = "labels" then x.labels
  else ""

/-- All pipeline tokens a document contributes, over the registered fields. -/
def docTokens (x : IndexedDoc) : List String :=
  (builderFields.map (fun f => pipeline (fieldValue x f))).flatten

/-- Modelled from the spec: record one posting — append `r` to the postings
list of token `t`, keeping each reference at most once per token. -/
def addPosting : List (String × List String) → String → String → List (String × List String)
  | [], t, r => [(t, [r])]
  | (t', rs) :: rest, t, r =>
    if t' = t then (t', if r ∈ rs then rs else rs ++ [r]) :: rest
    else (t', rs) :: addPosting rest t r

/-- Record all postings of one added document. -/
def addDocPostings (inv : List (String × List String)) (x : IndexedDoc) :
    List (String × List String) :=
  (docTokens x).foldl (fun acc t => addPosting acc t x.ref) inv

/-- Modelled from the spec: the inverted index — a map from stemmed tokens to
postings referencing document ids, built over the added documents in order. -/
def buildInv (xs : List IndexedDoc) : List (String × List String) :=
  xs.foldl addDocPostings []

/-- Modelled from the spec: the built index artifact — the list of document
references (one per `this.add` call, in input order) together with the
inverted index. -/
structure LunrIndex where
  refs : List String
  invertedIndex : List (String × List String)
  deriving DecidableEq, Repr

/-- The index built by the `lunr(function () {...})` callback (source lines
11-24): register ref and fields, then add each document of the input list. -/
def buildLunrIndex (docs : List Document) : LunrIndex :=
  { refs := (docs.map addDoc).map IndexedDoc.ref
    invertedIndex := buildInv (docs.map addDoc) }

/-- Look a token up in the inverted index, yielding its postings. -/
def lookupTok : List (String × List String) → String → List String
  | [], _ => []
  | (t', rs) :: rest, t => if t' = t then rs else lookupTok rest t

/-- Modelled from the spec: scored lookup against the built index — the
references posted under the queried token. -/
def search (idx : LunrIndex) (q : String) : List String :=
  lookupTok idx.invertedIndex q

/-- Modelled from the spec: `JSON.stringify(idx)` — a deterministic textual
serialization of the built index. -/
def stringifyIndex (idx : LunrIndex) : String :=
  "[" ++ String.intercalate "," idx.refs ++ "]|[" ++
    String.intercalate ";"
      (idx.invertedIndex.map (fun p => p.1 ++ ":" ++ String.intercalate "," p.2)) ++ "]"

/-- The two files the script touches: the input `out/github-docs.json` and
the output `out/github-lunr-index.json`; `none` means the file is absent. -/
structure FileSystem where
  input : Option String
  output : Option String
  deriving DecidableEq, Repr

/-- The whole script run: read the input file, parse it (`JSON.parse`,
modelled from the spec as a fallible parse function passed as a parameter),
build and serialize the index, and only then write the output file.  The
boolean is the success flag (false = the process exits non-zero before the
write). -/
def runScript (parseDocs : String → Option (List Document)) (fs : FileSystem) :
    FileSystem × Bool :=
  match fs.input with
  | none => (fs, false)
  | some s =>
    match parseDocs s with
    | none => (fs, false)
    | some docs =>
      ({ fs with output := some (stringifyIndex (buildLunrIndex docs)) }, true)

/-- The example document of the spec's testable-properties section. -/
def doc42 : Document :=
  { id := some "issue-42"
    title := some "Cannot export PDF"
    excerpt := some "export fails silently"
    labels := some ["bug", "pdf"] }

/-- A document with every field absent, as a JSON object with no keys. -/
def docBare : Document := {}

/-- A document carrying only empty text fields. -/
def docEmptyFields : Document :=
  { id := some "empty-doc", title := some "", excerpt := none, labels := some [] }

/-! ### Helper lemmas about the inverted index -/

theorem lookupTok_addPosting_self (inv : List (String × List String)) (t r : String) :
    r ∈ lookupTok (addPosting inv t r) t := by
  induction inv with
  | nil => simp [addPosting, lookupTok]
  | cons p rest ih =>
    obtain ⟨u, rs⟩ := p
    by_cases hu : u = t
    · subst hu
      by_cases hr : r ∈ rs <;> simp [addPosting, lookupTok, hr]
    · simpa [addPosting, lookupTok, hu] using ih

theorem lookupTok_addPosting_mono (inv : List (String × List String))
    (t t' r r' : String) (h : r ∈ lookupTok inv t) :
    r ∈ lookupTok (addPosting inv t' r') t := by
  induction inv with
  | nil => simp [lookupTok] at h
  | cons p rest ih =>
    obtain ⟨u, rs⟩ := p
    by_cases hu : u = t'
    · subst hu
      by_cases hut : u = t
      · subst hut
        simp only [lookupTok, if_true, eq_self_iff_true] at h
        by_cases hr : r' ∈ rs <;>
          simp [addPosting, lookupTok, hr, h, List.mem_append]
      · simp only [lookupTok, if_neg hut] at h
        simp [addPosting, lookupTok, hut, h]
    · by_cases hut : u = t
      · subst hut
        simp only [lookupTok, if_true, eq_self_iff_true] at h
        simp [addPosting, lookupTok, hu, h]
      · simp only [lookupTok, if_neg hut] at h
        simpa [addPosting, lookupTok, hu, hut] using ih h

theorem lookupTok_foldPost_mono (toks : List String)
    (inv : List (String × List String)) (t r r' : String)
    (h : r ∈ lookupTok inv t) :
    r ∈ lookupTok (toks.foldl (fun acc u => addPosting acc u r') inv) t := by
  induction toks generalizing inv with
  | nil => simpa using h
  | cons u us ih =>
    exact ih (addPosting inv u r') (lookupTok_addPosting_mono inv t u r r' h)

theorem lookupTok_foldPost_self (toks : List String)
    (inv : List (String × List String)) (t r : String) (h : t ∈ toks) :
    r ∈ lookupTok (toks.foldl (fun acc u => addPosting acc u r) inv) t := by
  induction toks generalizing inv with
  | nil => cases h
  | cons u us ih =>
    rcases List.mem_cons.mp h with h1 | h2
    · subst h1
      exact lookupTok_foldPost_mono us (addPosting inv t r) t r r
        (lookupTok_addPosting_self inv t r)
    · exact ih (addPosting inv u r) h2

theorem lookupTok_addDocPostings_mono (inv : List (String × List String))
    (x : IndexedDoc) (t r : String) (h : r ∈ lookupTok inv t) :
    r ∈ lookupTok (addDocPostings inv x) t :=
  lookupTok_foldPost_mono (docTokens x) inv t r x.ref h

theorem lookupTok_addDocPostings_self (inv : List (String × List String))
    (x : IndexedDoc) (t : String) (h : t ∈ docTokens x) :
    x.ref ∈ lookupTok (addDocPostings inv x) t :=
  lookupTok_foldPost_self (docTokens x) inv t x.ref h

theorem lookupTok_foldDocs_mono (xs : List IndexedDoc)
    (inv : List (String × List String)) (t r : String)
    (h : r ∈ lookupTok inv t) :
    r ∈ lookupTok (xs.foldl addDocPostings inv) t := by
  induction xs generalizing inv with
  | nil => simpa using h
  | cons y ys ih =>
    exact ih (addDocPostings inv y) (lookupTok_addDocPostings_mono inv y t r h)

theorem mem_lookupTok_foldDocs (xs : List IndexedDoc)
    (inv : List (String × List String)) (x : IndexedDoc) (t : String)
    (hx : x ∈ xs) (ht : t ∈ docTokens x) :
    x.ref ∈ lookupTok (xs.foldl addDocPostings inv) t := by
  induction xs generalizing inv with
  | nil => cases hx
  | cons y ys ih =>
    rcases List.mem_cons.mp hx with h1 | h2
    · subst h1
      exact lookupTok_foldDocs_mono ys (addDocPostings inv x) t x.ref
        (lookupTok_addDocPostings_self inv x t ht)
    · exact ih (addDocPostings inv y) h2

theorem mem_lookupTok_buildInv (xs : List IndexedDoc) (x : IndexedDoc)
    (t : String) (hx : x ∈ xs) (ht : t ∈ docTokens x) :
    x.ref ∈ lookupTok (buildInv xs) t :=
  mem_lookupTok_foldDocs xs [] x t hx ht

/-! ### Helper lemmas about fields, tokens and references -/

theorem docTokens_eq (x : IndexedDoc) :
    docTokens x = pipeline x.title ++ pipeline x.excerpt ++ pipeline x.labels := by
  simp [docTokens, builderFields, fieldValue]

theorem pipeline_empty : pipeline "" = [] := rfl

theorem docTokens_of_empty (x : IndexedDoc) (h1 : x.title = "")
    (h2 : x.excerpt = "") (h3 : x.labels = "") : docTokens x = [] := by
  rw [docTokens_eq, h1, h2, h3, pipeline_empty]
  rfl

theorem addDocPostings_of_no_tokens (inv : List (String × List String))
    (x : IndexedDoc) (h : docTokens x = []) : addDocPostings inv x = inv := by
  simp [addDocPostings, h]

theorem buildInv_middle_no_tokens (xs ys : List IndexedDoc) (y : IndexedDoc)
    (h : docTokens y = []) : buildInv (xs ++ y :: ys) = buildInv (xs ++ ys) := by
  unfold buildInv
  rw [List.foldl_append, List.foldl_cons, addDocPostings_of_no_tokens _ y h,
    ← List.foldl_append]

theorem buildLunrIndex_refs (docs : List Document) :
    (buildLunrIndex docs).refs = docs.map refOf := by
  simp only [buildLunrIndex, List.map_map]
  rfl

/-- Agreement of two documents on the four fields the indexer reads. -/
def coreAgree (d e : Document) : Prop :=
  d.id = e.id ∧ d.title = e.title ∧ d.excerpt = e.excerpt ∧ d.labels = e.labels

theorem addDoc_coreAgree (d e : Document) (h : coreAgree d e) :
    addDoc d = addDoc e := by
  obtain ⟨h1, h2, h3, h4⟩ := h
  simp [addDoc, refOf, h1, h2, h3, h4]

/-! ### Claim theorems -/

/-- C1: for every input document list, the built index contains each
document's `id` as a retrievable reference, and the reference list is exactly
the map of `refOf` over the input — every document appears as exactly one
reference, in input order, with no de-duplication and no filtering. -/
theorem index_refs_complete (docs : List Document) (d : Document)
    (hd : d ∈ docs) :
    (buildLunrIndex docs).refs = docs.map refOf ∧
      refOf d ∈ (buildLunrIndex docs).refs := by
  refine ⟨buildLunrIndex_refs docs, ?_⟩
  rw [buildLunrIndex_refs]
  exact List.mem_map_of_mem refOf hd

theorem index_refs_complete_witness :
    (buildLunrIndex [doc42]).refs = [doc42].map refOf ∧
      refOf doc42 ∈ (buildLunrIndex [doc42]).refs :=
  index_refs_complete [doc42] doc42 (List.mem_singleton.mpr rfl)

/-- C2: the indexer is deterministic — running the script a second time on
the unchanged input file leaves the very same serialized output bytes, the
output being a pure function of the parsed document list. -/
theorem runScript_deterministic (parseDocs : String → Option (List Document))
    (fs : FileSystem) :
    ((runScript parseDocs (runScript parseDocs fs).1).1).output =
      ((runScript parseDocs fs).1).output := by
  cases hin : fs.input with
  | none => simp [runScript, hin]
  | some s =>
    cases hp : parseDocs s with
    | none => simp [runScript, hin, hp]
    | some docs => simp [runScript, hin, hp]

/-- C3: when the input file is missing or its content fails to parse, the run
fails (success flag false, the process exits non-zero) and the file system is
left untouched — in particular the output file is neither created nor
modified, the write happening only after parsing succeeds. -/
theorem runScript_input_error (parseDocs : String → Option (List Document))
    (fs : FileSystem) (h : fs.input.bind parseDocs = none) :
    (runScript parseDocs fs).1 = fs ∧ (runScript parseDocs fs).2 = false := by
  cases hin : fs.input with
  | none => simp [runScript, hin]
  | some s =>
    rw [hin] at h
    simp only [Option.some_bind] at h
    simp [runScript, hin, h]

theorem runScript_input_error_witness :
    (runScript (fun _ => (none : Option (List Document)))
        ⟨some "[oops", some "stale"⟩).1 = ⟨some "[oops", some "stale"⟩ ∧
      (runScript (fun _ => (none : Option (List Document)))
        ⟨some "[oops", some "stale"⟩).2 = false :=
  runScript_input_error _ _ rfl

/-- C4: a document whose indexed `title`, `excerpt` and `labels` values are
all empty still yields an entry for its `id` in the reference list, and it
contributes no postings: the inverted index equals the one built without the
document. -/
theorem empty_doc_entry_no_postings (pre post : List Document) (d : Document)
    (h1 : (addDoc d).title = "") (h2 : (addDoc d).excerpt = "")
    (h3 : (addDoc d).labels = "") :
    refOf d ∈ (buildLunrIndex (pre ++ d :: post)).refs ∧
      (buildLunrIndex (pre ++ d :: post)).invertedIndex =
        (buildLunrIndex (pre ++ post)).invertedIndex := by
  constructor
  · rw [buildLunrIndex_refs]
    exact List.mem_map_of_mem refOf (by simp)
  · have htok : docTokens (addDoc d) = [] := docTokens_of_empty _ h1 h2 h3
    show buildInv ((pre ++ d :: post).map addDoc) =
      buildInv ((pre ++ post).map addDoc)
    rw [List.map_append, List.map_cons, List.map_append]
    exact buildInv_middle_no_tokens (pre.map addDoc) (post.map addDoc)
      (addDoc d) htok

theorem empty_doc_entry_no_postings_witness :
    refOf docEmptyFields ∈
        (buildLunrIndex ([] ++ docEmptyFields :: [])).refs ∧
      (buildLunrIndex ([] ++ docEmptyFields :: [])).invertedIndex =
        (buildLunrIndex ([] ++ [])).invertedIndex :=
  empty_doc_entry_no_postings [] [] docEmptyFields rfl rfl rfl

/-- C5: for every indexed document and every query equal to a stemmed token
derived from the document's title, looking the query up in the built index
returns the document's `id` among the results. -/
theorem title_token_search_hit (docs : List Document) (d : Document)
    (q : String) (hd : d ∈ docs) (hq : q ∈ pipeline ((addDoc d).title)) :
    refOf d ∈ search (buildLunrIndex docs) q := by
  have hx : addDoc d ∈ docs.map addDoc := List.mem_map_of_mem addDoc hd
  have ht : q ∈ docTokens (addDoc d) := by
    rw [docTokens_eq]
    exact List.mem_append_left _ (List.mem_append_left _ hq)
  exact mem_lookupTok_buildInv (docs.map addDoc) (addDoc d) q hx ht

theorem title_token_search_hit_witness :
    refOf doc42 ∈ search (buildLunrIndex [doc42]) "export" :=
  title_token_search_hit [doc42] doc42 "export"
    (List.mem_singleton.mpr rfl) (by decide)

/-- C6: on the spec's single-document example (id "issue-42", title "Cannot
export PDF", excerpt "export fails silently", labels ["bug", "pdf"]), the
query `export` returns exactly "issue-42" and the query `nonexistentword`
returns no results. -/
theorem example_issue42 :
    search (buildLunrIndex [doc42]) "export" = ["issue-42"] ∧
      search (buildLunrIndex [doc42]) "nonexistentword" = [] := by
  decide

/-- C7: a missing `title`, `excerpt` or `labels` field defaults to the empty
string (respectively, the empty label list joins to the empty string) before
indexing, and such a document is still indexed: its reference appears in the
built index. -/
theorem missing_fields_defaulted (d : Document) (docs : List Document)
    (hd : d ∈ docs) :
    (d.title = none → (addDoc d).title = "") ∧
      (d.excerpt = none → (addDoc d).excerpt = "") ∧
      (d.labels = none → (addDoc d).labels = "") ∧
      refOf d ∈ (buildLunrIndex docs).refs := by
  refine ⟨?_, ?_, ?_, ?_⟩
  · intro h
    simp [addDoc, h]
  · intro h
    simp [addDoc, h]
  · intro h
    simp [addDoc, h]
    rfl
  · rw [buildLunrIndex_refs]
    exact List.mem_map_of_mem refOf hd

theorem missing_fields_defaulted_witness :
    (docBare.title = none → (addDoc docBare).title = "") ∧
      (docBare.excerpt = none → (addDoc docBare).excerpt = "") ∧
      (docBare.labels = none → (addDoc docBare).labels = "") ∧
      refOf docBare ∈ (buildLunrIndex [docBare]).refs :=
  missing_fields_defaulted docBare [docBare] (List.mem_singleton.mpr rfl)

/-- C8: exactly three searchable fields are registered, under the reference
key `id`: `title` as the raw (defaulted) string, `excerpt` as the raw
(defaulted) string, and `labels` joined by single spaces; the tokens a
document contributes come from exactly those three field values. -/
theorem three_fields_under_id (d : Document) :
    builderRef = "id" ∧
      builderFields = ["title", "excerpt", "labels"] ∧
      fieldValue (addDoc d) "title" = d.title.getD "" ∧
      fieldValue (addDoc d) "excerpt" = d.excerpt.getD "" ∧
      fieldValue (addDoc d) "labels" =
        String.intercalate " " (d.labels.getD []) ∧
      (addDoc d).ref = refOf d ∧
      docTokens (addDoc d) =
        pipeline (d.title.getD "") ++ pipeline (d.excerpt.getD "") ++
          pipeline (String.intercalate " " (d.labels.getD [])) := by
  refine ⟨rfl, rfl, ?_, ?_, ?_, rfl, ?_⟩
  · simp [fieldValue, addDoc]
  · simp [fieldValue, addDoc]
  · simp [fieldValue, addDoc]
  · rw [docTokens_eq]
    rfl

/-- C9: a document lacking an `id` is neither rejected nor does it abort the
run — it is indexed under the coerced reference string "undefined". -/
theorem no_id_coerced_undefined (d : Document) (docs : List Document)
    (hid : d.id = none) (hd : d ∈ docs) :
    refOf d = "undefined" ∧ "undefined" ∈ (buildLunrIndex docs).refs := by
  have h : refOf d = "undefined" := by simp [refOf, hid]
  refine ⟨h, ?_⟩
  rw [buildLunrIndex_refs, ← h]
  exact List.mem_map_of_mem refOf hd

theorem no_id_coerced_undefined_witness :
    refOf docBare = "undefined" ∧
      "undefined" ∈ (buildLunrIndex [docBare]).refs :=
  no_id_coerced_undefined docBare [docBare] rfl (List.mem_singleton.mpr rfl)

/-- C10: the built index depends only on `id`, `title`, `excerpt` and
`labels` — two input lists agreeing document-by-document on those four fields
serialize to the identical output, whatever their `type`, `number`, `url` or
`updated_at` fields. -/
theorem index_ignores_noncore (docs1 docs2 : List Document)
    (h : List.Forall₂ coreAgree docs1 docs2) :
    stringifyIndex (buildLunrIndex docs1) =
      stringifyIndex (buildLunrIndex docs2) := by
  have hmap : docs1.map addDoc = docs2.map addDoc := by
    induction h with
    | nil => rfl
    | cons hab hrest ih => simp [List.map_cons, addDoc_coreAgree _ _ hab, ih]
  have hidx : buildLunrIndex docs1 = buildLunrIndex docs2 := by
    simp [buildLunrIndex, hmap]
  rw [hidx]

/-- Concrete pair for the noninterference witness: same core fields,
different `type`, `number`, `url` and `updated_at`. -/
def docCore1 : Document :=
  { id := some "i1", title := some "Hello world", number := some 1
    url := some "https://a.example/1" }

/-- Second document of the pair, differing only in non-core fields. -/
def docCore2 : Document :=
  { id := some "i1", title := some "Hello world", number := some 2
    url := some "https://b.example/2", type_ := some "discussion"
    updated_at := some "2024-01-01T00:00:00Z" }

theorem index_ignores_noncore_witness :
    stringifyIndex (buildLunrIndex [docCore1]) =
      stringifyIndex (buildLunrIndex [docCore2]) :=
  index_ignores_noncore [docCore1] [docCore2]
    (List.Forall₂.cons ⟨rfl, rfl, rfl, rfl⟩ List.Forall₂.nil)

end GhDocsIndex
